import Mathlib

/-!
Verification development for the monei-task voice-assistant pipeline.

This file gives a shallow embedding, in Lean 4, of the pure logic of the
repository's components and proves the specification's testable properties
about them:

* `src/llm_providers.py` — conversation-history management shared by
  `GroqProvider.ask` and `MoneiProvider.ask`, and the SSE stream decoder
  `MoneiProvider._parse_sse`;
* `src/speech_to_text/yarngpt_tts.py` — the validation logic of
  `synthesize_speech` (text length, voice normalization, output format);
* `src/speech_to_text/collector.py` — extension classification and
  `collect_local_file` over an explicit file-system model;
* `src/speech_to_text/processor.py` — `_ensure_wav` conversion fallback,
  `_load_audio_as_numpy` waveform canonicalization, and `process_batch`
  per-item failure isolation.

External effects (HTTP calls, the Whisper model, scipy's resampler, ffmpeg,
moviepy) are modelled as explicit function parameters; the file system is an
association list from paths to byte contents; Python floats are modelled as
rationals; machine-independent string/list logic is translated directly from
the source.
-/

/- ------------------------------------------------------------------ -/
/- Shared Python string primitives                                     -/
/- ------------------------------------------------------------------ -/

/-- Whitespace recognised by Python's `str.strip()` (ASCII subset):
space, tab, newline, carriage return, vertical tab, form feed. -/
def pyIsSpace (c : Char) : Bool :=
  c = ' ' || c = '\t' || c = '\n' || c = '\r' || c = Char.ofNat 11 || c = Char.ofNat 12

/-- Python `s.strip()`: remove leading and trailing whitespace. -/
def pyStrip (s : String) : String :=
  ⟨((s.data.dropWhile pyIsSpace).reverse.dropWhile pyIsSpace).reverse⟩

/-- Python `s.lower()` (ASCII model): lowercase every character. -/
def pyLower (s : String) : String :=
  ⟨s.data.map Char.toLower⟩

/-- Python `s.endswith(t)`: suffix test, at the character level. -/
def strEndsWith (s t : String) : Bool :=
  t.data.isSuffixOf s.data

/-- Helper for Python `s.title()`: the boolean records whether the previous
character was alphabetic; an alphabetic character is uppercased at the start
of a word and lowercased inside one. -/
def pyTitleAux : Bool → List Char → List Char
  | _, [] => []
  | prevAlpha, c :: cs =>
    if c.isAlpha then
      (if prevAlpha then c.toLower else c.toUpper) :: pyTitleAux true cs
    else
      c :: pyTitleAux false cs

/-- Python `s.title()` (ASCII model): capitalize the first letter of each
word, lowercase the rest. -/
def pyTitle (s : String) : String :=
  ⟨pyTitleAux false s.data⟩

/- ------------------------------------------------------------------ -/
/- src/llm_providers.py — conversation history                         -/
/- ------------------------------------------------------------------ -/

namespace LLMProviders

/-- One entry of `chat_history`: a dict `{"role": ..., "content": ...}`. -/
structure Msg where
  role : String
  content : String
deriving DecidableEq

/-- The history manipulation performed identically by `GroqProvider.ask`
(src/llm_providers.py lines 57-59 and 72) and `MoneiProvider.ask` (lines
89-91 and 109): append the user turn, truncate to the most recent 20 entries
when the list exceeds 20 (`chat_history[:] = chat_history[-20:]`), and —
after the provider produced `reply` — append the assistant turn. -/
def ask_history_update (user_text reply : String) (chat_history : List Msg) :
    List Msg :=
  let h1 := chat_history ++ [⟨"user", user_text⟩]
  let h2 := if h1.length > 20 then h1.drop (h1.length - 20) else h1
  h2 ++ [⟨"assistant", reply⟩]

/-- One event of the Monei SSE stream after JSON decoding: a `token` event
carrying incremental text, a `complete` event carrying the final text, or
any other line (skipped by the loop). -/
inductive SSEEvent where
  | token (data : String)
  | complete (data : String)
  | other
deriving DecidableEq

/-- Payload string of an event (`payload.get("data", "")`). -/
def SSEEvent.payload : SSEEvent → String
  | .token d => d
  | .complete d => d
  | .other => ""

/-- Whether an event is a completion event. -/
def SSEEvent.isComplete : SSEEvent → Bool
  | .complete _ => true
  | _ => false

/-- Whether an event is an incremental-token event. -/
def SSEEvent.isToken : SSEEvent → Bool
  | .token _ => true
  | _ => false

/-- Error message raised by `_parse_sse` when the stream yields no text. -/
def moneiEmptyMsg : String := "Monei API returned an empty response"

/-- The read loop of `MoneiProvider._parse_sse` (src/llm_providers.py lines
115-124): tokens are appended to the running buffer, the first `complete`
event replaces the buffer with its stripped payload and breaks the loop,
anything else is skipped. -/
def parse_sse_loop : List SSEEvent → String → String
  | [], full_text => full_text
  | .complete d :: _, _ => pyStrip d
  | .token d :: rest, full_text => parse_sse_loop rest (full_text ++ d)
  | .other :: rest, full_text => parse_sse_loop rest full_text

/-- `MoneiProvider._parse_sse` (src/llm_providers.py lines 112-128): run the
read loop starting from an empty buffer; an empty final buffer is a hard
error. -/
def parse_sse (events : List SSEEvent) : Except String String :=
  let full_text := parse_sse_loop events ""
  if full_text = "" then .error moneiEmptyMsg else .ok full_text

end LLMProviders

/- ------------------------------------------------------------------ -/
/- src/speech_to_text/yarngpt_tts.py — synthesize_speech validation    -/
/- ------------------------------------------------------------------ -/

namespace YarnGPT

/-- The keys of `YARNGPT_VOICES` (src/speech_to_text/yarngpt_tts.py lines
21-36), in insertion order. -/
def YARNGPT_VOICES : List String :=
  ["Idera", "Emma", "Zainab", "Osagie", "Jude", "Chinenye", "Tayo",
   "Regina", "Adaora", "Umar", "Mary", "Nonso", "Remi", "Adam"]

/-- `", ".join(YARNGPT_VOICES.keys())` as used in the UnknownVoice error. -/
def availableVoices : String := String.intercalate ", " YARNGPT_VOICES

/-- The validation errors `synthesize_speech` can raise before issuing the
HTTP request (ValueError in the source; named after the spec's taxonomy). -/
inductive TTSError where
  | textTooLong (n : Nat)
  | unknownVoice (voice available : String)
  | invalidFormat (fmt : String)
deriving DecidableEq

/-- The JSON payload `synthesize_speech` sends on success (lines 105-109):
the unmodified text, the normalized voice, the requested format. -/
structure TTSRequest where
  text : String
  voice : String
  response_format : String
deriving DecidableEq

/-- The validation prefix of `synthesize_speech` (src/speech_to_text/
yarngpt_tts.py lines 84-96 and 105-109): reject text over 2000 characters,
normalize the voice with `voice.strip().title()` and require membership in
`YARNGPT_VOICES`, require a known output format; on success produce the
request payload that is sent to the remote API. -/
def synthesize_speech (text voice response_format : String) :
    Except TTSError TTSRequest :=
  if text.length > 2000 then
    .error (.textTooLong text.length)
  else
    let v := pyTitle (pyStrip voice)
    if v ∈ YARNGPT_VOICES then
      if response_format ∈ (["mp3", "wav", "opus", "flac"] : List String) then
        .ok ⟨text, v, response_format⟩
      else
        .error (.invalidFormat response_format)
    else
      .error (.unknownVoice v availableVoices)

end YarnGPT

/- ------------------------------------------------------------------ -/
/- src/speech_to_text/collector.py                                     -/
/- ------------------------------------------------------------------ -/

namespace Collector

/-- `AUDIO_EXTENSIONS` (src/speech_to_text/collector.py line 16). -/
def AUDIO_EXTENSIONS : List String :=
  [".wav", ".mp3", ".flac", ".ogg", ".m4a", ".aac", ".wma"]

/-- `VIDEO_EXTENSIONS` (src/speech_to_text/collector.py line 17). -/
def VIDEO_EXTENSIONS : List String :=
  [".mp4", ".mkv", ".avi", ".mov", ".webm", ".flv", ".wmv"]

/-- Helper for `pathName`: scan the characters, resetting the accumulated
component at every `/`. -/
def pathNameAux : List Char → List Char → List Char
  | [], acc => acc
  | c :: cs, acc =>
    if c = '/' then pathNameAux cs [] else pathNameAux cs (acc ++ [c])

/-- `Path(p).name` (POSIX model): the final `/`-separated component. -/
def pathName (p : String) : String :=
  ⟨pathNameAux p.data []⟩

/-- Index of the last `'.'` in a character list, if any. -/
def lastDotIdx : List Char → Option Nat
  | [] => none
  | c :: cs =>
    match lastDotIdx cs with
    | some i => some (i + 1)
    | none => if c = '.' then some 0 else none

/-- `Path(p).suffix`: the extension of the final component, from its last
dot, provided that dot is neither the first nor the last character of the
name; empty otherwise. -/
def pathSuffix (p : String) : String :=
  let name := (pathName p).data
  match lastDotIdx name with
  | some i => if 0 < i ∧ i < name.length - 1 then ⟨name.drop i⟩ else ""
  | none => ""

/-- `is_audio` (src/speech_to_text/collector.py lines 27-29):
`Path(filepath).suffix.lower() in AUDIO_EXTENSIONS`. -/
def is_audio (filepath : String) : Bool :=
  pyLower (pathSuffix filepath) ∈ AUDIO_EXTENSIONS

/-- `is_video` (src/speech_to_text/collector.py lines 32-34). -/
def is_video (filepath : String) : Bool :=
  pyLower (pathSuffix filepath) ∈ VIDEO_EXTENSIONS

/-- File-system model: an association list from paths to byte contents.
Directories are implicit (`ensure_dir` is idempotent creation, a no-op
here). -/
structure FS where
  files : List (String × List Nat)
deriving DecidableEq

/-- Read a file's bytes, `none` when the path does not exist
(`os.path.exists` returning False). -/
def FS.read? (fs : FS) (p : String) : Option (List Nat) :=
  (fs.files.find? (fun e => e.1 = p)).map Prod.snd

/-- Write (or overwrite) a file. -/
def FS.write (fs : FS) (p : String) (content : List Nat) : FS :=
  ⟨(p, content) :: fs.files⟩

/-- Errors of `collect_local_file` (FileNotFoundError / ValueError in the
source; named after the spec's taxonomy). -/
inductive CollectError where
  | fileNotFound (p : String)
  | unsupportedFormat (ext : String)
deriving DecidableEq

/-- `collect_local_file` (src/speech_to_text/collector.py lines 44-73):
require the source to exist, require a supported audio or video extension,
then copy the bytes (`shutil.copy2`) to `output_dir / Path(filepath).name`.
Returns the updated file system and the destination path. -/
def collect_local_file (fs : FS) (filepath output_dir : String) :
    Except CollectError (FS × String) :=
  match fs.read? filepath with
  | none => .error (.fileNotFound filepath)
  | some content =>
    if is_audio filepath || is_video filepath then
      let dest_path := output_dir ++ "/" ++ pathName filepath
      .ok (fs.write dest_path content, dest_path)
    else
      .error (.unsupportedFormat (pathSuffix filepath))

end Collector

/- ------------------------------------------------------------------ -/
/- src/speech_to_text/processor.py                                     -/
/- ------------------------------------------------------------------ -/

namespace Processor

/-- A transcription result dict as built by `transcribe_audio`
(src/speech_to_text/processor.py lines 185-197); segments are
`(start, end, text)` triples. -/
structure Transcription where
  audio_path : String
  text : String
  language : String
  segments : List (Rat × Rat × String)
deriving DecidableEq

/-- `audio_path.rsplit(".", 1)[0]`: everything before the last dot, or the
whole string when there is no dot. -/
def rsplitDropExt (s : String) : String :=
  match Collector.lastDotIdx s.data with
  | some i => ⟨s.data.take i⟩
  | none => s

/-- The ffmpeg command line built by `_ensure_wav` (src/speech_to_text/
processor.py lines 48-60): overwrite, input file, 16 kHz sample rate, one
channel, WAV container, output file. -/
def ffmpegCmd (ffmpeg_path audio_path wav_path : String) : List String :=
  [ffmpeg_path, "-y", "-i", audio_path, "-ar", "16000", "-ac", "1",
   "-f", "wav", wav_path]

/-- `_ensure_wav` (src/speech_to_text/processor.py lines 34-67). The
subprocess is the parameter `run`, mapping a command line to its return
code. The result pairs the returned path with the command that was invoked
(`none` when the conversion tool was not invoked), so that theorems can
speak about tool invocation: a path already ending in `.wav`
(case-insensitively, `audio_path.lower().endswith(".wav")`) is returned
unchanged with no invocation; otherwise ffmpeg is run and a non-zero return
code falls back to the original path. -/
def ensure_wav (ffmpeg_path : String) (run : List String → Int)
    (audio_path : String) : String × Option (List String) :=
  if strEndsWith (pyLower audio_path) ".wav" then
    (audio_path, none)
  else
    let wav_path := rsplitDropExt audio_path ++ "_converted.wav"
    let cmd := ffmpegCmd ffmpeg_path audio_path wav_path
    if run cmd ≠ 0 then
      (audio_path, some cmd)
    else
      (wav_path, some cmd)

/-- Sample container dtype as reported by `scipy.io.wavfile.read`:
the branches of src/speech_to_text/processor.py lines 88-93. -/
inductive Dtype where
  | int16
  | int32
  | float32
  | otherDtype
deriving DecidableEq

/-- The numpy array returned by `wavfile.read`: one-dimensional for mono,
frames-by-channels for multi-channel audio. Sample values are rationals
(exact model of floats/integers). -/
inductive WavData where
  | oneD (samples : List Rat)
  | twoD (frames : List (List Rat))
deriving DecidableEq

/-- A parsed WAV file: header sample rate plus the data array and dtype. -/
structure WavFile where
  sr : Nat
  dtype : Dtype
  dat : WavData
deriving DecidableEq

/-- The dtype-dependent scaling of lines 88-93: 16-bit integers scale by
1/32768, 32-bit integers by 1/2147483648, float32 is untouched, any other
dtype is cast to float32 (value-preserving in this rational model). -/
def scaleSample (dt : Dtype) (x : Rat) : Rat :=
  match dt with
  | .int16 => x / 32768
  | .int32 => x / 2147483648
  | .float32 => x
  | .otherDtype => x

/-- Apply a per-sample function to every sample of the array. -/
def WavData.mapSamples (f : Rat → Rat) : WavData → WavData
  | .oneD xs => .oneD (xs.map f)
  | .twoD frames => .twoD (frames.map (List.map f))

/-- Arithmetic mean of a list (numpy `mean`; the empty list yields `0/0 = 0`
in `Rat`, numpy would yield NaN). -/
def listMean (l : List Rat) : Rat := l.sum / l.length

/-- `data.mean(axis=1)` applied when `data.ndim > 1` (lines 96-97): a 1-D
array is left alone, a 2-D array is averaged frame-wise to mono. -/
def WavData.toMono : WavData → List Rat
  | .oneD xs => xs
  | .twoD frames => frames.map listMean

/-- `_load_audio_as_numpy` (src/speech_to_text/processor.py lines 70-106)
after the `wavfile.read` call: scale by dtype, average multi-channel audio
to mono, and when the header rate differs from 16000 Hz resample to
`int(len(data) * 16000 / sr)` samples via `scipy.signal.resample` (the
parameter `resample`, taking the data and the target sample count). The
result pairs the produced waveform with its effective sample rate (the
Python function returns only the array, whose rate is 16000 by
construction). -/
def load_audio_as_numpy (resample : List Rat → Nat → List Rat)
    (w : WavFile) : List Rat × Nat :=
  let data := w.dat.mapSamples (scaleSample w.dtype)
  let mono := data.toMono
  if w.sr ≠ 16000 then
    let num_samples := mono.length * 16000 / w.sr
    (resample mono num_samples, 16000)
  else
    (mono, w.sr)

/-- `transcribe_audio` (src/speech_to_text/processor.py lines 140-203) with
the Whisper backend (model loading, `_ensure_wav`, `_load_audio_as_numpy`
and `model.transcribe`, lines 171-197) abstracted as the `backend`
parameter: a missing input file raises FileNotFoundError before the backend
is consulted. -/
def transcribe_audio (backend : String → Except String Transcription)
    (fs : Collector.FS) (audio_path : String) : Except String Transcription :=
  match fs.read? audio_path with
  | none => .error ("Audio file not found: " ++ audio_path)
  | some _ => backend audio_path

/-- `process_file` (src/speech_to_text/processor.py lines 206-236): video
files are first handed to `extract_audio_from_video` (moviepy, abstracted as
`extract`), audio files go straight to transcription, anything else raises
ValueError. -/
def process_file (extract : String → Except String String)
    (backend : String → Except String Transcription) (fs : Collector.FS)
    (filepath : String) : Except String Transcription :=
  if Collector.is_video filepath then
    match extract filepath with
    | .error e => .error e
    | .ok audio_path => transcribe_audio backend fs audio_path
  else if Collector.is_audio filepath then
    transcribe_audio backend fs filepath
  else
    .error ("Unsupported file format: " ++ filepath)

/-- One element of the list returned by `process_batch`: a transcription
dict, or the error record `{"audio_path": fp, "error": str(e)}`. -/
inductive BatchResult where
  | transcript (t : Transcription)
  | errorRecord (audio_path error : String)
deriving DecidableEq

/-- The body of the `process_batch` loop for one file: the try/except of
src/speech_to_text/processor.py lines 260-265. -/
def batchItem (extract : String → Except String String)
    (backend : String → Except String Transcription) (fs : Collector.FS)
    (fp : String) : BatchResult :=
  match process_file extract backend fs fp with
  | .ok t => .transcript t
  | .error e => .errorRecord fp e

/-- `process_batch` (src/speech_to_text/processor.py lines 239-267): iterate
over the inputs accumulating one result per file, catching every per-item
exception as an error record. -/
def process_batch (extract : String → Except String String)
    (backend : String → Except String Transcription) (fs : Collector.FS)
    (filepaths : List String) : List BatchResult :=
  filepaths.foldl (fun results fp => results ++ [batchItem extract backend fs fp]) []

end Processor

/- ------------------------------------------------------------------ -/
/- Theorems                                                            -/
/- ------------------------------------------------------------------ -/

/-- Two strings with the same character data are equal. -/
theorem string_data_ext {a b : String} (h : a.data = b.data) : a = b := by
  cases a
  cases b
  exact congrArg String.mk h

/-- Appending the empty string on the right is the identity. -/
theorem string_append_empty (s : String) : s ++ "" = s := by
  apply string_data_ext
  simp

/-- Appending the empty string on the left is the identity. -/
theorem string_empty_append (s : String) : "" ++ s = s := by
  apply string_data_ext
  simp

/-- String concatenation is associative. -/
theorem string_append_assoc (a b c : String) : a ++ b ++ c = a ++ (b ++ c) := by
  apply string_data_ext
  simp

/-- Unfolding lemma for `String.join` on a cons cell. -/
theorem string_join_cons (s : String) (l : List String) :
    String.join (s :: l) = s ++ String.join l := by
  have key : ∀ (l : List String) (a : String),
      l.foldl (fun r s => r ++ s) a = a ++ l.foldl (fun r s => r ++ s) "" := by
    intro l
    induction l with
    | nil => intro a; simp [List.foldl]
    | cons x xs ih =>
      intro a
      simp only [List.foldl]
      rw [ih (a ++ x), ih ("" ++ x), string_append_assoc]
      rw [string_empty_append]
  simp only [String.join, List.foldl]
  rw [key l ("" ++ s), string_empty_append]

namespace LLMProviders

/-- C1 (amended): after every single `ask` call, on either provider
variant, the history holds at most 21 entries; the update equals the
20-entry FIFO truncation applied right after appending the user turn,
followed by appending the assistant reply; the entries other than the final
assistant reply form a suffix of the pre-truncation history (oldest dropped
first); and the assistant reply is the last entry when `ask` returns. -/
theorem ask_history_cap_after_user_turn :
    (∀ u r h, (ask_history_update u r h).length ≤ 21) ∧
    (∀ u r h, ask_history_update u r h =
      (h ++ [Msg.mk "user" u]).drop ((h ++ [Msg.mk "user" u]).length - 20) ++
        [Msg.mk "assistant" r]) ∧
    (∀ u r h, (ask_history_update u r h).dropLast <:+ h ++ [Msg.mk "user" u]) ∧
    (∀ u r h, (ask_history_update u r h).getLast? = some (Msg.mk "assistant" r)) := by
  have key : ∀ u r h, ask_history_update u r h =
      (h ++ [Msg.mk "user" u]).drop ((h ++ [Msg.mk "user" u]).length - 20) ++
        [Msg.mk "assistant" r] := by
    intro u r h
    simp only [ask_history_update]
    by_cases hl : (h ++ [Msg.mk "user" u]).length > 20
    · rw [if_pos hl]
    · rw [if_neg hl]
      have h0 : (h ++ [Msg.mk "user" u]).length - 20 = 0 := by
        simp only [List.length_append, List.length_cons, List.length_nil] at hl ⊢
        omega
      rw [h0, List.drop_zero]
  refine ⟨?_, key, ?_, ?_⟩
  · intro u r h
    rw [key u r h]
    simp only [List.length_append, List.length_drop, List.length_cons,
      List.length_nil]
    omega
  · intro u r h
    rw [key u r h, List.dropLast_concat]
    exact List.drop_suffix _ _
  · intro u r h
    rw [key u r h]
    simp

/-- C1 counterexample: starting from a history of 19 entries, a single
`ask` call returns with the history at 21 entries, so the history length
does exceed 20 after an `ask` call. -/
theorem ask_history_exceeds_twenty_cex :
    ¬((ask_history_update "hi" "there"
        (List.replicate 19 (Msg.mk "user" "x"))).length ≤ 20) := by
  decide

/-- Key loop lemma: when no event before the first `complete` event is
itself a `complete` event, the loop returns the stripped payload of that
`complete` event, whatever the accumulated buffer was. -/
theorem parse_sse_loop_complete (pre post : List SSEEvent) (d acc : String)
    (h : ∀ e ∈ pre, e.isComplete = false) :
    parse_sse_loop (pre ++ SSEEvent.complete d :: post) acc = pyStrip d := by
  induction pre generalizing acc with
  | nil => rfl
  | cons e pre ih =>
    have hpre : ∀ x ∈ pre, x.isComplete = false := fun x hx =>
      h x (List.mem_cons_of_mem _ hx)
    cases e with
    | token t => simpa [parse_sse_loop] using ih (acc ++ t) hpre
    | complete s => simp [SSEEvent.isComplete] at h
    | other => simpa [parse_sse_loop] using ih acc hpre

/-- Key loop lemma: on a stream of token events only, the loop appends the
concatenation of all payloads, in order, to the buffer. -/
theorem parse_sse_loop_tokens (evs : List SSEEvent) (acc : String)
    (h : ∀ e ∈ evs, e.isToken = true) :
    parse_sse_loop evs acc = acc ++ String.join (evs.map SSEEvent.payload) := by
  induction evs generalizing acc with
  | nil =>
    simp only [parse_sse_loop, List.map_nil]
    exact (string_append_empty acc).symm
  | cons e rest ih =>
    have hrest : ∀ x ∈ rest, x.isToken = true := fun x hx =>
      h x (List.mem_cons_of_mem _ hx)
    cases e with
    | token t =>
      simp only [parse_sse_loop, List.map_cons, SSEEvent.payload]
      rw [ih (acc ++ t) hrest, string_join_cons, string_append_assoc]
    | complete s => simp [SSEEvent.isToken] at h
    | other => simp [SSEEvent.isToken] at h

end LLMProviders

namespace LLMProviders

/-- C2 (amended): the parser returns the whitespace-stripped payload of the
first `complete` event — replacing, not appending to, the running token
buffer and stopping the read loop there — failing with EmptyResponse when
that stripped payload is empty; for a stream containing only token events
and no `complete` event it returns the concatenation of all token payloads
in order, failing with EmptyResponse when that concatenation is empty. -/
theorem parse_sse_complete_replaces_tokens_concat :
    (∀ pre d post, (∀ e ∈ pre, e.isComplete = false) →
        parse_sse (pre ++ SSEEvent.complete d :: post) =
          if pyStrip d = "" then .error moneiEmptyMsg
          else .ok (pyStrip d)) ∧
    (∀ evs, (∀ e ∈ evs, e.isToken = true) →
        parse_sse evs =
          if String.join (evs.map SSEEvent.payload) = "" then
            .error moneiEmptyMsg
          else .ok (String.join (evs.map SSEEvent.payload))) := by
  constructor
  · intro pre d post h
    simp only [parse_sse]
    rw [parse_sse_loop_complete pre post d "" h]
  · intro evs h
    simp only [parse_sse]
    rw [parse_sse_loop_tokens evs "" h, string_empty_append]

/-- C2 witness: the spec scenario `[token "Hel", token "lo",
complete "Hello!"]` yields exactly `"Hello!"`, and the token-only stream
`[token "Hel", token "lo"]` yields the concatenation `"Hello"`. -/
theorem parse_sse_complete_replaces_tokens_concat_witness :
    parse_sse [SSEEvent.token "Hel", SSEEvent.token "lo",
      SSEEvent.complete "Hello!"] = .ok "Hello!" ∧
    parse_sse [SSEEvent.token "Hel", SSEEvent.token "lo"] = .ok "Hello" := by
  constructor
  · show parse_sse ([SSEEvent.token "Hel", SSEEvent.token "lo"] ++
      SSEEvent.complete "Hello!" :: []) = .ok "Hello!"
    rw [parse_sse_complete_replaces_tokens_concat.1
      [SSEEvent.token "Hel", SSEEvent.token "lo"] "Hello!" [] (by decide)]
    rfl
  · rw [parse_sse_complete_replaces_tokens_concat.2
      [SSEEvent.token "Hel", SSEEvent.token "lo"] (by decide)]
    rfl

/-- C2 counterexample: the parser does not return the payload of the first
`complete` event verbatim — the payload `" Hello!"` comes back stripped as
`"Hello!"`. -/
theorem parse_sse_payload_not_verbatim_cex :
    parse_sse [SSEEvent.complete " Hello!"] ≠ .ok " Hello!" ∧
    parse_sse [SSEEvent.complete " Hello!"] = .ok "Hello!" := by
  have hok : parse_sse [SSEEvent.complete " Hello!"] = .ok "Hello!" := rfl
  refine ⟨?_, hok⟩
  rw [hok]
  intro hcontra
  injection hcontra with hs
  exact absurd hs (by decide)

/-- C3 (confirmed): the empty stream fails with EmptyResponse; more
generally every stream whose read loop ends with an empty buffer fails with
EmptyResponse; and a successful reply string is never empty. -/
theorem parse_sse_empty_response_error :
    parse_sse [] = .error moneiEmptyMsg ∧
    (∀ evs, parse_sse_loop evs "" = "" →
        parse_sse evs = .error moneiEmptyMsg) ∧
    (∀ evs s, parse_sse evs = .ok s → s ≠ "") := by
  refine ⟨rfl, ?_, ?_⟩
  · intro evs hloop
    simp only [parse_sse, hloop]
    simp
  · intro evs s hok
    simp only [parse_sse] at hok
    by_cases hempty : parse_sse_loop evs "" = ""
    · rw [if_pos hempty] at hok
      exact absurd hok (by simp)
    · rw [if_neg hempty] at hok
      cases hok
      exact hempty

/-- C3 witness: a stream of one empty token ends with an empty buffer and
fails with EmptyResponse; the successful reply on `[token "hi"]` is the
non-empty string `"hi"`. -/
theorem parse_sse_empty_response_error_witness :
    parse_sse [SSEEvent.token ""] = .error moneiEmptyMsg ∧
    ("hi" : String) ≠ "" := by
  constructor
  · exact parse_sse_empty_response_error.2.1 [SSEEvent.token ""] (by decide)
  · exact parse_sse_empty_response_error.2.2 [SSEEvent.token "hi"] "hi" rfl

/-- C10 (confirmed): a `complete` event whose payload strips to the empty
string makes the call fail with EmptyResponse even when earlier token
events contributed non-empty text; when the stripped payload is non-empty
it is returned stripped of surrounding whitespace. -/
theorem parse_sse_whitespace_complete_fails :
    (∀ pre d post, (∀ e ∈ pre, e.isComplete = false) → pyStrip d = "" →
        parse_sse (pre ++ SSEEvent.complete d :: post) =
          .error moneiEmptyMsg) ∧
    (∀ pre d post, (∀ e ∈ pre, e.isComplete = false) → pyStrip d ≠ "" →
        parse_sse (pre ++ SSEEvent.complete d :: post) =
          .ok (pyStrip d)) := by
  constructor
  · intro pre d post h hd
    simp only [parse_sse]
    rw [parse_sse_loop_complete pre post d "" h, if_pos hd]
  · intro pre d post h hd
    simp only [parse_sse]
    rw [parse_sse_loop_complete pre post d "" h, if_neg hd]

/-- C10 witness: after a non-empty token `"Hel"`, a whitespace-only
completion payload fails with EmptyResponse, and a padded payload
`"  Hello!  "` comes back stripped. -/
theorem parse_sse_whitespace_complete_fails_witness :
    parse_sse [SSEEvent.token "Hel", SSEEvent.complete "  "] =
      .error moneiEmptyMsg ∧
    parse_sse [SSEEvent.token "Hel", SSEEvent.complete "  Hello!  "] =
      .ok "Hello!" := by
  constructor
  · exact parse_sse_whitespace_complete_fails.1
      [SSEEvent.token "Hel"] "  " [] (by decide) (by decide)
  · show parse_sse ([SSEEvent.token "Hel"] ++
      SSEEvent.complete "  Hello!  " :: []) = .ok "Hello!"
    rw [parse_sse_whitespace_complete_fails.2
      [SSEEvent.token "Hel"] "  Hello!  " [] (by decide) (by decide)]
    rfl

end LLMProviders

/-- Comparison of `UInt32` values mirrors comparison of their `Nat` images. -/
theorem uint32_le_iff_toNat_le (a b : UInt32) : a ≤ b ↔ a.toNat ≤ b.toNat := by
  simp [UInt32.le_def, BitVec.le_def, UInt32.toNat]

/-- Characters with equal code points are equal. -/
theorem char_toNat_inj {c d : Char} (h : c.toNat = d.toNat) : c = d :=
  Char.ext (UInt32.toNat.inj h)

/-- `Char.isAlpha` restated over `Nat` code points. -/
theorem char_isAlpha_eq (c : Char) :
    c.isAlpha =
      decide ((65 ≤ c.toNat ∧ c.toNat ≤ 90) ∨ (97 ≤ c.toNat ∧ c.toNat ≤ 122)) := by
  rw [Bool.eq_iff_iff]
  simp only [Char.isAlpha, Char.isUpper, Char.isLower, ge_iff_le,
    Bool.or_eq_true, Bool.and_eq_true, decide_eq_true_eq]
  rw [uint32_le_iff_toNat_le, uint32_le_iff_toNat_le, uint32_le_iff_toNat_le,
    uint32_le_iff_toNat_le]
  exact Iff.rfl

/-- Code point of `Char.ofNat` below the surrogate range. -/
theorem char_toNat_ofNat_valid (n : Nat) (h : n < 55296) :
    (Char.ofNat n).toNat = n := by
  have hv : n.isValidChar := Or.inl h
  rw [Char.ofNat, dif_pos hv]
  rfl

/-- Lowercasing an ASCII capital letter adds 32 to its code point. -/
theorem char_toLower_toNat (c : Char) (h : 65 ≤ c.toNat ∧ c.toNat ≤ 90) :
    (Char.toLower c).toNat = c.toNat + 32 := by
  rw [Char.toLower, if_pos h]
  exact char_toNat_ofNat_valid _ (by omega)

/-- Lowercasing leaves any character outside A-Z unchanged. -/
theorem char_toLower_eq_self (c : Char) (h : ¬(65 ≤ c.toNat ∧ c.toNat ≤ 90)) :
    Char.toLower c = c := by
  rw [Char.toLower, if_neg h]

/-- Uppercasing an ASCII small letter subtracts 32 from its code point. -/
theorem char_toUpper_toNat (c : Char) (h : 97 ≤ c.toNat ∧ c.toNat ≤ 122) :
    (Char.toUpper c).toNat = c.toNat - 32 := by
  rw [Char.toUpper, if_pos h]
  exact char_toNat_ofNat_valid _ (by omega)

/-- Uppercasing leaves any character outside a-z unchanged. -/
theorem char_toUpper_eq_self (c : Char) (h : ¬(97 ≤ c.toNat ∧ c.toNat ≤ 122)) :
    Char.toUpper c = c := by
  rw [Char.toUpper, if_neg h]

/-- Lowercasing is idempotent. -/
theorem char_toLower_toLower (c : Char) :
    (Char.toLower c).toLower = c.toLower := by
  by_cases h : 65 ≤ c.toNat ∧ c.toNat ≤ 90
  · have h1 := char_toLower_toNat c h
    exact char_toLower_eq_self _ (by omega)
  · rw [char_toLower_eq_self c h, char_toLower_eq_self c h]

/-- Lowercasing after uppercasing agrees with lowercasing directly. -/
theorem char_toLower_toUpper (c : Char) :
    (Char.toUpper c).toLower = c.toLower := by
  by_cases h : 97 ≤ c.toNat ∧ c.toNat ≤ 122
  · have h1 := char_toUpper_toNat c h
    have h2 : Char.toLower c = c := char_toLower_eq_self c (by omega)
    have h3 : (Char.toUpper c).toLower.toNat = c.toNat := by
      rw [char_toLower_toNat _ (by omega)]
      omega
    rw [h2]
    exact char_toNat_inj h3
  · rw [char_toUpper_eq_self c h]

/-- Uppercasing after lowercasing agrees with uppercasing directly. -/
theorem char_toUpper_toLower (c : Char) :
    (Char.toLower c).toUpper = c.toUpper := by
  by_cases h : 65 ≤ c.toNat ∧ c.toNat ≤ 90
  · have h1 := char_toLower_toNat c h
    have h2 : Char.toUpper c = c := char_toUpper_eq_self c (by omega)
    have h3 : (Char.toLower c).toUpper.toNat = c.toNat := by
      rw [char_toUpper_toNat _ (by omega)]
      omega
    rw [h2]
    exact char_toNat_inj h3
  · rw [char_toLower_eq_self c h]

/-- Lowercasing preserves alphabeticity. -/
theorem char_isAlpha_toLower (c : Char) :
    (Char.toLower c).isAlpha = c.isAlpha := by
  by_cases h : 65 ≤ c.toNat ∧ c.toNat ≤ 90
  · rw [char_isAlpha_eq, char_isAlpha_eq, char_toLower_toNat c h,
      decide_eq_decide]
    omega
  · rw [char_toLower_eq_self c h]

/-- Non-alphabetic characters are fixed by lowercasing. -/
theorem char_toLower_eq_self_of_not_alpha (c : Char) (h : c.isAlpha = false) :
    Char.toLower c = c := by
  rw [char_isAlpha_eq] at h
  simp only [decide_eq_false_iff_not] at h
  exact char_toLower_eq_self c (fun hc => h (Or.inl hc))

/-- Title-casing does not change the lowercase image of a string. -/
theorem pyTitleAux_map_toLower (b : Bool) (l : List Char) :
    (pyTitleAux b l).map Char.toLower = l.map Char.toLower := by
  induction l generalizing b with
  | nil => rfl
  | cons c cs ih =>
    simp only [pyTitleAux]
    by_cases hc : c.isAlpha
    · rw [if_pos hc]
      cases b with
      | true => simp [char_toLower_toLower, ih true]
      | false => simp [char_toLower_toUpper, ih true]
    · rw [if_neg hc]
      simp only [List.map_cons, ih false]

/-- Title-casing depends only on the lowercase image of a string: two
strings equal up to ASCII case title-case identically. -/
theorem pyTitleAux_congr (b : Bool) (l m : List Char)
    (h : l.map Char.toLower = m.map Char.toLower) :
    pyTitleAux b l = pyTitleAux b m := by
  induction l generalizing b m with
  | nil =>
    cases m with
    | nil => rfl
    | cons d ds => simp at h
  | cons c cs ih =>
    cases m with
    | nil => simp at h
    | cons d ds =>
      simp only [List.map_cons, List.cons.injEq] at h
      obtain ⟨h1, h2⟩ := h
      have halpha : c.isAlpha = d.isAlpha := by
        rw [← char_isAlpha_toLower c, ← char_isAlpha_toLower d, h1]
      simp only [pyTitleAux]
      by_cases hc : c.isAlpha
      · have hd : d.isAlpha = true := by rw [← halpha]; exact hc
        have hup : c.toUpper = d.toUpper := by
          rw [← char_toUpper_toLower c, ← char_toUpper_toLower d, h1]
        have hhead : (if b then c.toLower else c.toUpper) =
            (if b then d.toLower else d.toUpper) := by
          cases b
          · simpa using hup
          · simpa using h1
        rw [if_pos hc, if_pos hd, hhead, ih true ds h2]
      · have hc2 : c.isAlpha = false := by simpa using hc
        have hd2 : ¬(d.isAlpha = true) := by simp [← halpha, hc2]
        have hcd : c = d := by
          rw [← char_toLower_eq_self_of_not_alpha c hc2,
            ← char_toLower_eq_self_of_not_alpha d (by simpa using hd2), h1]
        rw [if_neg hc, if_neg hd2, hcd, ih false ds h2]

/-- Lowercasing after title-casing agrees with lowercasing directly. -/
theorem pyLower_pyTitle (s : String) : pyLower (pyTitle s) = pyLower s := by
  apply string_data_ext
  simp only [pyLower, pyTitle]
  exact pyTitleAux_map_toLower false s.data

/-- Strings with the same lowercase image title-case identically. -/
theorem pyTitle_congr (v c : String) (h : pyLower v = pyLower c) :
    pyTitle v = pyTitle c := by
  apply string_data_ext
  simp only [pyTitle]
  exact pyTitleAux_congr false v.data c.data
    (by simpa [pyLower] using congrArg String.data h)

namespace YarnGPT

/-- Every canonical voice name is a fixed point of the normalization. -/
theorem voices_title_fixed : ∀ c ∈ YARNGPT_VOICES, pyTitle c = c := by decide

/-- C4 (confirmed): synthesize_speech fails with TextTooLong exactly when
the text exceeds 2000 characters — longer text is rejected carrying its
length, text within the limit never produces TextTooLong, accepted requests
carry the text unmodified (no truncation), and concretely a 2000-character
text is accepted while a 2001-character text is rejected. -/
theorem string_mk_length (l : List Char) : (String.mk l).length = l.length :=
  rfl

/-- C4 (confirmed): synthesize_speech fails with TextTooLong exactly when
the text exceeds 2000 characters — longer text is rejected carrying its
length, text within the limit never produces TextTooLong, accepted requests
carry the text unmodified (no truncation), and concretely a 2000-character
text is accepted while a 2001-character text is rejected. -/
theorem synthesize_text_length_limit :
    (∀ text voice fmt, 2000 < text.length →
        synthesize_speech text voice fmt =
          .error (.textTooLong text.length)) ∧
    (∀ text voice fmt, text.length ≤ 2000 → ∀ n,
        synthesize_speech text voice fmt ≠ .error (.textTooLong n)) ∧
    (∀ text voice fmt req, synthesize_speech text voice fmt = .ok req →
        req.text = text) ∧
    (synthesize_speech (String.mk (List.replicate 2000 'a')) "Idera" "mp3" =
        .ok ⟨String.mk (List.replicate 2000 'a'), "Idera", "mp3"⟩) ∧
    (synthesize_speech (String.mk (List.replicate 2001 'a')) "Idera" "mp3" =
        .error (.textTooLong 2001)) := by
  have hlong : ∀ text voice fmt, 2000 < text.length →
      synthesize_speech text voice fmt = .error (.textTooLong text.length) := by
    intro text voice fmt h
    simp only [synthesize_speech]
    rw [if_pos h]
  have haccept : ∀ text : String, text.length ≤ 2000 →
      synthesize_speech text "Idera" "mp3" = .ok ⟨text, "Idera", "mp3"⟩ := by
    intro text h
    simp only [synthesize_speech]
    rw [if_neg (by omega),
      show pyTitle (pyStrip "Idera") = "Idera" from by decide,
      if_pos (show ("Idera" : String) ∈ YARNGPT_VOICES from by decide),
      if_pos (show ("mp3" : String) ∈ (["mp3", "wav", "opus", "flac"] :
        List String) from by decide)]
  refine ⟨hlong, ?_, ?_, ?_, ?_⟩
  · intro text voice fmt h n
    simp only [synthesize_speech]
    rw [if_neg (by omega)]
    split
    · split
      · simp
      · simp
    · simp
  · intro text voice fmt req h
    simp only [synthesize_speech] at h
    by_cases h1 : text.length > 2000
    · rw [if_pos h1] at h
      cases h
    · rw [if_neg h1] at h
      split at h
      · split at h
        · cases h
          rfl
        · cases h
      · cases h
  · exact haccept _ (by rw [string_mk_length, List.length_replicate])
  · have hlen : (String.mk (List.replicate 2001 'a')).length = 2001 := by
      rw [string_mk_length, List.length_replicate]
    rw [hlong (String.mk (List.replicate 2001 'a')) "Idera" "mp3"
      (by rw [hlen]; omega), hlen]

/-- C4 witness: the too-long branch, the within-limit branch and the
no-truncation conclusion, each applied at a concrete input. -/
theorem synthesize_text_length_limit_witness :
    synthesize_speech (String.mk (List.replicate 2001 'b')) "Idera" "mp3" =
      .error (.textTooLong (String.mk (List.replicate 2001 'b')).length) ∧
    synthesize_speech "hello" "Idera" "mp3" ≠ .error (.textTooLong 5) ∧
    (({ text := "hello", voice := "Idera", response_format := "mp3" } :
        TTSRequest).text = "hello") := by
  refine ⟨?_, ?_, ?_⟩
  · exact synthesize_text_length_limit.1
      (String.mk (List.replicate 2001 'b')) "Idera" "mp3"
      (by rw [string_mk_length, List.length_replicate]; omega)
  · exact synthesize_text_length_limit.2.1 "hello" "Idera" "mp3" (by decide) 5
  · exact synthesize_text_length_limit.2.2.1 "hello" "Idera" "mp3"
      ⟨"hello", "Idera", "mp3"⟩ rfl

/-- C5 (confirmed): the voice name is normalized by strip+title to the
canonical case form and matched case-insensitively against the enumerated
voice set — "idera" and "IDERA" both resolve to "Idera"; any input whose
stripped form matches a canonical name up to case resolves to exactly that
canonical name and never yields UnknownVoice, and any input matching no
canonical name fails with UnknownVoice carrying the list of valid
options. -/
theorem synthesize_voice_resolution :
    pyTitle (pyStrip "idera") = "Idera" ∧
    pyTitle (pyStrip "IDERA") = "Idera" ∧
    (∀ v c, c ∈ YARNGPT_VOICES → pyLower (pyStrip v) = pyLower c →
        pyTitle (pyStrip v) = c ∧
        (∀ text fmt, text.length ≤ 2000 → ∀ a b,
          synthesize_speech text v fmt ≠ .error (.unknownVoice a b))) ∧
    (∀ v, (∀ c ∈ YARNGPT_VOICES, pyLower (pyStrip v) ≠ pyLower c) →
        ∀ text fmt, text.length ≤ 2000 →
          synthesize_speech text v fmt =
            .error (.unknownVoice (pyTitle (pyStrip v)) availableVoices)) := by
  refine ⟨by decide, by decide, ?_, ?_⟩
  · intro v c hc hlow
    have hres : pyTitle (pyStrip v) = c := by
      rw [pyTitle_congr (pyStrip v) c hlow]
      exact voices_title_fixed c hc
    refine ⟨hres, ?_⟩
    intro text fmt htext a b
    simp only [synthesize_speech]
    rw [if_neg (by omega), if_pos (by rw [hres]; exact hc)]
    split
    · simp
    · simp
  · intro v hmiss text fmt htext
    have hnotmem : ¬(pyTitle (pyStrip v) ∈ YARNGPT_VOICES) := by
      intro hmem
      apply hmiss (pyTitle (pyStrip v)) hmem
      rw [pyLower_pyTitle]
    simp only [synthesize_speech]
    rw [if_neg (by omega), if_neg hnotmem]

/-- C5 witness: a padded mixed-case name resolves to its canonical form and
is accepted; and a name outside the set fails with UnknownVoice listing the
options. -/
theorem synthesize_voice_resolution_witness :
    pyTitle (pyStrip "  zAINAB ") = "Zainab" ∧
    (∀ a b, synthesize_speech "hello" "  zAINAB " "mp3" ≠
        .error (.unknownVoice a b)) ∧
    synthesize_speech "hello" "bob" "mp3" =
      .error (.unknownVoice (pyTitle (pyStrip "bob")) availableVoices) := by
  refine ⟨?_, ?_, ?_⟩
  · exact (synthesize_voice_resolution.2.2.1 "  zAINAB " "Zainab"
      (by decide) (by decide)).1
  · exact fun a b => (synthesize_voice_resolution.2.2.1 "  zAINAB " "Zainab"
      (by decide) (by decide)).2 "hello" "mp3" (by decide) a b
  · exact synthesize_voice_resolution.2.2.2 "bob" (by decide) "hello" "mp3"
      (by decide)

end YarnGPT

namespace Collector

/-- Reading back a freshly written file returns the written bytes. -/
theorem fs_read_write (fs : FS) (p : String) (content : List Nat) :
    (fs.write p content).read? p = some content := by
  simp [FS.read?, FS.write, List.find?]

/-- C6 (confirmed): collecting an existing local file whose extension is in
the audio/video allow-list succeeds, the destination is `output_dir` joined
with the source's file name (name preserved) and holds bytes identical to
the source; an existing file with an unsupported extension fails with
UnsupportedFormat; a non-existent path fails with FileNotFound. -/
theorem collect_local_file_spec :
    (∀ fs p dir content, fs.read? p = some content →
        (is_audio p || is_video p) = true →
        collect_local_file fs p dir =
          .ok (fs.write (dir ++ "/" ++ pathName p) content,
            dir ++ "/" ++ pathName p) ∧
        (fs.write (dir ++ "/" ++ pathName p) content).read?
          (dir ++ "/" ++ pathName p) = some content) ∧
    (∀ fs p dir content, fs.read? p = some content →
        (is_audio p || is_video p) = false →
        collect_local_file fs p dir =
          .error (.unsupportedFormat (pathSuffix p))) ∧
    (∀ fs p dir, fs.read? p = none →
        collect_local_file fs p dir = .error (.fileNotFound p)) := by
  refine ⟨?_, ?_, ?_⟩
  · intro fs p dir content hread hfmt
    constructor
    · simp only [collect_local_file, hread]
      rw [if_pos hfmt]
    · exact fs_read_write fs (dir ++ "/" ++ pathName p) content
  · intro fs p dir content hread hfmt
    simp only [collect_local_file, hread]
    rw [if_neg (by simp [hfmt])]
  · intro fs p dir hread
    simp only [collect_local_file, hread]

/-- C6 witness: a concrete mp3 is copied with identical bytes, a text file
is rejected as UnsupportedFormat, a missing path is rejected as
FileNotFound. -/
theorem collect_local_file_spec_witness :
    collect_local_file (FS.mk [("a.mp3", [1, 2, 3])]) "a.mp3" "out" =
      .ok (FS.mk [("out/a.mp3", [1, 2, 3]), ("a.mp3", [1, 2, 3])],
        "out/a.mp3") ∧
    (FS.mk [("out/a.mp3", [1, 2, 3]), ("a.mp3", [1, 2, 3])]).read?
      "out/a.mp3" = some [1, 2, 3] ∧
    collect_local_file (FS.mk [("notes.txt", [7])]) "notes.txt" "out" =
      .error (.unsupportedFormat ".txt") ∧
    collect_local_file (FS.mk []) "ghost.mp3" "out" =
      .error (.fileNotFound "ghost.mp3") := by
  have h1 := (collect_local_file_spec.1 (FS.mk [("a.mp3", [1, 2, 3])])
    "a.mp3" "out" [1, 2, 3] (by decide) (by decide))
  have h2 := collect_local_file_spec.2.1 (FS.mk [("notes.txt", [7])])
    "notes.txt" "out" [7] (by decide) (by decide)
  have h3 := collect_local_file_spec.2.2 (FS.mk []) "ghost.mp3" "out"
    (by decide)
  exact ⟨h1.1, h1.2, h2, h3⟩

end Collector

/-- Folding an append of singletons equals appending the image list. -/
theorem foldl_append_singleton_eq_map {α β : Type} (f : α → β) :
    ∀ (l : List α) (acc : List β),
      l.foldl (fun rs x => rs ++ [f x]) acc = acc ++ l.map f := by
  intro l
  induction l with
  | nil => intro acc; simp
  | cons x xs ih =>
    intro acc
    simp only [List.foldl, List.map_cons]
    rw [ih (acc ++ [f x])]
    simp

namespace Processor

/-- C7 (confirmed): batch transcription is total — it returns exactly one
result per input path, in order; the result at each position is the per-item
outcome for the input at that position, and an input whose processing fails
contributes the error record `{audio_path, error}` in its place while the
other positions are unaffected. -/
theorem process_batch_per_item_isolation
    (extract : String → Except String String)
    (backend : String → Except String Transcription)
    (fs : Collector.FS) (filepaths : List String) :
    (process_batch extract backend fs filepaths).length =
      filepaths.length ∧
    (∀ i : Nat, (process_batch extract backend fs filepaths)[i]? =
        Option.map (batchItem extract backend fs) filepaths[i]?) ∧
    (∀ (i : Nat) (fp e : String), filepaths[i]? = some fp →
        process_file extract backend fs fp = .error e →
        (process_batch extract backend fs filepaths)[i]? =
          some (BatchResult.errorRecord fp e)) := by
  have key : process_batch extract backend fs filepaths =
      filepaths.map (batchItem extract backend fs) := by
    have h := foldl_append_singleton_eq_map
      (batchItem extract backend fs) filepaths []
    simpa [process_batch] using h
  refine ⟨?_, ?_, ?_⟩
  · rw [key, List.length_map]
  · intro i
    rw [key, List.getElem?_map]
  · intro i fp e hfp herr
    rw [key, List.getElem?_map, hfp]
    simp [batchItem, herr]

/-- C7 witness: the spec scenario of a valid file followed by a
non-existent file yields exactly two results — a transcript and an error
record naming the missing path — applied at concrete inputs. -/
theorem process_batch_per_item_isolation_witness :
    (process_batch (fun p => .ok p)
      (fun p => .ok ⟨p, "hello", "en", []⟩)
      (Collector.FS.mk [("a.mp3", [0])])
      ["a.mp3", "missing.mp3"]).length = 2 ∧
    (process_batch (fun p => .ok p)
      (fun p => .ok ⟨p, "hello", "en", []⟩)
      (Collector.FS.mk [("a.mp3", [0])])
      ["a.mp3", "missing.mp3"])[1]? =
      some (.errorRecord "missing.mp3"
        ("Audio file not found: " ++ "missing.mp3")) := by
  have h := process_batch_per_item_isolation (fun p => .ok p)
    (fun p => .ok ⟨p, "hello", "en", []⟩)
    (Collector.FS.mk [("a.mp3", [0])]) ["a.mp3", "missing.mp3"]
  refine ⟨h.1.trans rfl, ?_⟩
  exact h.2.2 1 "missing.mp3" ("Audio file not found: " ++ "missing.mp3")
    rfl rfl

end Processor

namespace Processor

/-- C8 (confirmed): waveform loading always yields a single-channel
sequence at an effective rate of exactly 16000 Hz — the source rate is kept
only when it already equals 16000, otherwise the data is resampled to
`len * 16000 / sr` samples; multi-channel frames are averaged to mono;
16-bit integer samples are scaled by 1/32768, 32-bit integer samples by
1/2147483648, and float samples pass through unchanged. -/
theorem load_audio_canonical_waveform
    (resample : List Rat → Nat → List Rat)
    (hres : ∀ xs n, (resample xs n).length = n) (w : WavFile) :
    (load_audio_as_numpy resample w).2 = 16000 ∧
    (w.sr = 16000 → (load_audio_as_numpy resample w).1 =
        (w.dat.mapSamples (scaleSample w.dtype)).toMono) ∧
    (w.sr ≠ 16000 →
        (load_audio_as_numpy resample w).1 =
          resample ((w.dat.mapSamples (scaleSample w.dtype)).toMono)
            ((w.dat.mapSamples (scaleSample w.dtype)).toMono.length *
              16000 / w.sr) ∧
        (load_audio_as_numpy resample w).1.length =
          (w.dat.mapSamples (scaleSample w.dtype)).toMono.length *
            16000 / w.sr) ∧
    (∀ frames, w.dat = .twoD frames →
        (w.dat.mapSamples (scaleSample w.dtype)).toMono =
          frames.map (fun fr => listMean (fr.map (scaleSample w.dtype)))) ∧
    (∀ xs, w.dat = .oneD xs →
        (w.dat.mapSamples (scaleSample w.dtype)).toMono =
          xs.map (scaleSample w.dtype)) ∧
    (∀ x, scaleSample Dtype.int16 x = x / 32768) ∧
    (∀ x, scaleSample Dtype.int32 x = x / 2147483648) ∧
    (∀ x, scaleSample Dtype.float32 x = x) := by
  refine ⟨?_, ?_, ?_, ?_, ?_, fun x => rfl, fun x => rfl, fun x => rfl⟩
  · by_cases hsr : w.sr = 16000
    · simp [load_audio_as_numpy, hsr]
    · simp [load_audio_as_numpy, hsr]
  · intro hsr
    simp [load_audio_as_numpy, hsr]
  · intro hsr
    constructor
    · simp [load_audio_as_numpy, hsr]
    · simp [load_audio_as_numpy, hsr, hres]
  · intro frames hdat
    rw [hdat]
    simp [WavData.mapSamples, WavData.toMono, List.map_map, Function.comp]
  · intro xs hdat
    rw [hdat]
    rfl

/-- C8 witness: a concrete two-channel 16-bit file at 8000 Hz — the
theorem applied with a length-respecting resampler. -/
theorem load_audio_canonical_waveform_witness :
    (load_audio_as_numpy (fun _ n => List.replicate n 0)
      ⟨8000, Dtype.int16, WavData.twoD [[16384, -16384], [32767, 1]]⟩).2 =
      16000 ∧
    ((⟨8000, Dtype.int16,
        WavData.twoD [[16384, -16384], [32767, 1]]⟩ :
          WavFile).dat.mapSamples (scaleSample Dtype.int16)).toMono =
      [[(16384 : Rat) / 32768, (-16384 : Rat) / 32768],
        [(32767 : Rat) / 32768, (1 : Rat) / 32768]].map listMean := by
  have h := load_audio_canonical_waveform (fun _ n => List.replicate n 0)
    (fun xs n => by simp)
    ⟨8000, Dtype.int16, WavData.twoD [[16384, -16384], [32767, 1]]⟩
  refine ⟨h.1, ?_⟩
  exact h.2.2.2.1 [[16384, -16384], [32767, 1]] rfl

/-- C9 (confirmed): a path already ending in `.wav` (case-insensitively) is
returned unchanged and the conversion tool is not invoked; any other path
triggers exactly one ffmpeg invocation whose command requests a 16000 Hz
sample rate and a single channel ("-ar 16000 -ac 1"); when the tool fails
(non-zero return code) the original path is returned unmodified, and when
it succeeds the converted `_converted.wav` path is returned. -/
theorem ensure_wav_conversion_fallback (ffmpeg_path : String)
    (run : List String → Int) (p : String) :
    (strEndsWith (pyLower p) ".wav" = true →
        ensure_wav ffmpeg_path run p = (p, none)) ∧
    (strEndsWith (pyLower p) ".wav" = false →
        (ensure_wav ffmpeg_path run p).2 =
          some (ffmpegCmd ffmpeg_path p
            (rsplitDropExt p ++ "_converted.wav")) ∧
        (run (ffmpegCmd ffmpeg_path p
            (rsplitDropExt p ++ "_converted.wav")) ≠ 0 →
          (ensure_wav ffmpeg_path run p).1 = p) ∧
        (run (ffmpegCmd ffmpeg_path p
            (rsplitDropExt p ++ "_converted.wav")) = 0 →
          (ensure_wav ffmpeg_path run p).1 =
            rsplitDropExt p ++ "_converted.wav") ∧
        ["-ar", "16000", "-ac", "1"] <:+:
          ffmpegCmd ffmpeg_path p (rsplitDropExt p ++ "_converted.wav")) := by
  constructor
  · intro hwav
    simp [ensure_wav, hwav]
  · intro hwav
    refine ⟨?_, ?_, ?_, ?_⟩
    · by_cases hrun : run (ffmpegCmd ffmpeg_path p
          (rsplitDropExt p ++ "_converted.wav")) ≠ 0
      · simp [ensure_wav, hwav, hrun]
      · simp [ensure_wav, hwav, hrun]
    · intro hrun
      simp [ensure_wav, hwav, hrun]
    · intro hrun
      simp [ensure_wav, hwav, hrun]
    · exact ⟨[ffmpeg_path, "-y", "-i", p],
        ["-f", "wav", rsplitDropExt p ++ "_converted.wav"], rfl⟩

/-- C9 witness: a `.WAV` path is returned untouched with no invocation;
a failing conversion of an mp3 falls back to the original path; a
successful conversion yields the `_converted.wav` path. -/
theorem ensure_wav_conversion_fallback_witness :
    ensure_wav "ffmpeg" (fun _ => 0) "song.WAV" = ("song.WAV", none) ∧
    (ensure_wav "ffmpeg" (fun _ => 1) "dir/clip.mp3").1 = "dir/clip.mp3" ∧
    (ensure_wav "ffmpeg" (fun _ => 0) "dir/clip.mp3").1 =
      rsplitDropExt "dir/clip.mp3" ++ "_converted.wav" := by
  refine ⟨?_, ?_, ?_⟩
  · exact (ensure_wav_conversion_fallback "ffmpeg" (fun _ => 0)
      "song.WAV").1 (by decide)
  · exact (ensure_wav_conversion_fallback "ffmpeg" (fun _ => 1)
      "dir/clip.mp3").2 (by decide) |>.2.1 (by decide)
  · exact (ensure_wav_conversion_fallback "ffmpeg" (fun _ => 0)
      "dir/clip.mp3").2 (by decide) |>.2.2.1 rfl

end Processor
